import Mathlib

/-!
Verification development for the 1y-language tree-walking interpreter
(lexer / parser / evaluator written in Go).

The Go sources are shallowly embedded as follows.

* The AST fragment needed by the properties below is the inductive `Node`,
  reconstructed from the node constructors built by `parser.go` and consumed
  by `evaluator.go` (the `ast` package itself only declares these shapes).
* Runtime values (`object` package) are the inductive `Obj`.  Go `*object.Integer`
  and `*object.Array` are pointers to mutable contents; the embedding makes the
  mutable contents explicit in a store `St` (`ints` for `big.Int` cells, `arrs`
  for array element slices) and lets `Obj.intRef` / `Obj.arrRef` carry the cell
  index, so aliasing and in-place mutation are represented faithfully.
  `big.Int` is arbitrary precision, hence a cell is a Lean `Int`.
* Environments (`object/environment.go`) form a chain of frames; the embedding
  `EnvT` is the corresponding inductive (innermost frame first, `outer` link as
  the nested chain).  The evaluator threads the possibly-updated chain through
  explicitly.  A frame's Go `map[string]EnvValue` is an association list with
  map update semantics.
* The evaluator `Eval` is general-recursive over the AST, so the embedding
  `eval` takes a fuel argument; `Out.fuelOut` reports exhausted fuel and is
  distinct from `Out.ok none` which models Go's `Eval` returning a nil
  `object.Object`, and from `Out.crashed` which models a Go runtime panic
  (out-of-range index or failed type assertion).
-/

namespace OneY

/-- AST nodes (ast package), as constructed by `parser.go` and consumed by
`evaluator.go`.  This is the fragment exercised by the claims; `If`, `While`,
`Index`, `Dot`, `Hash` and `Import` nodes are not needed and are omitted.
`forStmt` mirrors `ast.ForStatement` built by `parseForStatement`
(optional init / cond / post, plus a body block). -/
inductive Node where
  | program (stmts : List Node)
  | blockStmt (stmts : List Node)
  | exprStmt (e : Node)
  | letStmt (name : String) (value : Node)
  | constStmt (name : String) (value : Node)
  | returnStmt (value : Node)
  | breakStmt
  | continueStmt
  | forStmt (ini : Option Node) (cond : Option Node) (post : Option Node) (body : Node)
  | intLit (n : Int)
  | boolLit (b : Bool)
  | strLit (s : String)
  | identE (name : String)
  | prefixExpr (op : String) (right : Node)
  | postfixExpr (op : String) (left : Node)
  | infixExpr (op : String) (left : Node) (right : Node)
  | assignExpr (name : Node) (value : Node)
  | arrayLit (elems : List Node)
  | callExpr (fn : Node) (args : List Node)
  | funcLit (params : List String) (body : Node)

mutual
/-- Runtime values (`object` package).  `intRef` / `arrRef` carry the index of
the mutable cell in the store `St`, mirroring the Go pointers `*object.Integer`
(whose `Value *big.Int` is mutated in place by `++`/`--` and compound
assignment) and `*object.Array` (whose `Elements` slice is mutated in place by
`push`/`pop`).  `funcV` is `object.Function` (parameters, body, captured
environment); `builtinV` names an entry of the builtin table (the table is
immutable, so carrying the name is equivalent to carrying the Go function
pointer).  `retV`, `errV`, `breakV`, `contV` are the propagation sentinels
`ReturnValue`, `Error`, `Break`, `Continue`.  `floatV` marks an
`object.Float` result: `big.Float` arithmetic goes through float64
conversions in the source (`bigFloatPow`) and the float value itself is
outside this embedding — no claim evaluates Float-typed data. -/
inductive Obj where
  | nullV
  | boolV (b : Bool)
  | intRef (i : Nat)
  | strV (s : String)
  | arrRef (i : Nat)
  | funcV (params : List String) (body : Node) (env : EnvT)
  | builtinV (name : String)
  | floatV
  | retV (o : Obj)
  | errV (msg : String)
  | breakV
  | contV

/-- `object.Environment`: a frame (`store map[string]EnvValue`, here an
association list of name ↦ (value, readOnly)) with an optional enclosing
environment.  Go environments are heap-shared; the embedding passes the
chain functionally, which is faithful for every execution proved below
(none of them re-reads a frame through a second live pointer after the
chain has been threaded onward). -/
inductive EnvT where
  | mk (store : List (String × Obj × Bool)) (outer : Option EnvT)
end

/-- The mutable store backing `Obj.intRef` and `Obj.arrRef`. -/
structure St where
  ints : List Int := []
  arrs : List (List Obj) := []

namespace EnvT

/-- The frame's association list (Go `e.store`). -/
def store : EnvT → List (String × Obj × Bool)
  | .mk s _ => s

/-- The enclosing environment (Go `e.outer`). -/
def outer : EnvT → Option EnvT
  | .mk _ o => o

end EnvT

/-- Lookup in one frame's map (`e.store[name]`). -/
def storeGet : List (String × Obj × Bool) → String → Option (Obj × Bool)
  | [], _ => none
  | (k, v, ro) :: rest, name => if k = name then some (v, ro) else storeGet rest name

/-- Map update in one frame (`e.store[name] = ...`): overwrite the existing
entry, otherwise insert. -/
def storeSet : List (String × Obj × Bool) → String → Obj → Bool → List (String × Obj × Bool)
  | [], name, v, ro => [(name, v, ro)]
  | (k, w, kro) :: rest, name, v, ro =>
    if k = name then (k, v, ro) :: rest else (k, w, kro) :: storeSet rest name v ro

/-- `Environment.Get`: walk the chain; returns (value, ok, readOnly); the value
is `none` when the name is unbound at the final frame (Go's zero `EnvValue`). -/
def getVar : EnvT → String → Option Obj × Bool × Bool
  | .mk store outer, name =>
    match storeGet store name with
    | some (v, ro) => (some v, true, ro)
    | none =>
      match outer with
      | some o => getVar o name
      | none => (none, false, false)

/-- `Environment.Set`: if the name is absent from this frame and an outer frame
exists, recurse outward; otherwise (found here, or this is the outermost frame)
reject when the binding found is read-only, else write `(val, readOnly=false)`
into this frame and return the value.  At the outermost frame an absent name
reads as Go's zero `EnvValue` (readOnly=false), so a fresh binding is created
silently. -/
def setVar : EnvT → String → Obj → EnvT × Obj
  | .mk store outer, name, val =>
    match storeGet store name with
    | none =>
      match outer with
      | some o =>
        let r := setVar o name val
        (.mk store (some r.1), r.2)
      | none => (.mk (storeSet store name val false) none, val)
    | some (_, ro) =>
      if ro then (.mk store outer, .errV ("cannot assign to constant \x27" ++ name ++ "\x27"))
      else (.mk (storeSet store name val false) outer, val)

/-- `Environment.isExist`. -/
def isExist (e : EnvT) (name : String) : Bool :=
  (storeGet e.store name).isSome

/-- `isValidName`: nonempty and not starting with a digit. -/
def isValidName (name : String) : Bool :=
  if name.length = 0 then false
  else if "0".front ≤ name.front ∧ name.front ≤ "9".front then false
  else true

/-- `Environment.NewVar`: declare in the innermost frame, rejecting invalid
names and redeclaration. -/
def newVar (e : EnvT) (name : String) (val : Obj) : EnvT × Obj :=
  if ¬ isValidName name then
    (e, .errV ("invalid variable name \x27" ++ name ++ "\x27"))
  else if isExist e name then
    (e, .errV ("cannot redeclare variable \x27" ++ name ++ "\x27"))
  else (.mk (storeSet e.store name val false) e.outer, val)

/-- `Environment.NewConst`: like `NewVar` but the binding is read-only. -/
def newConst (e : EnvT) (name : String) (val : Obj) : EnvT × Obj :=
  if ¬ isValidName name then
    (e, .errV ("invalid variable name \x27" ++ name ++ "\x27"))
  else if isExist e name then
    (e, .errV ("cannot redeclare constant \x27" ++ name ++ "\x27"))
  else (.mk (storeSet e.store name val true) e.outer, val)

/-- `object.NewEnclosedEnvironment`: fresh empty frame over `outer`. -/
def newEnclosedEnvironment (outer : EnvT) : EnvT :=
  .mk [] (some outer)

/-- `Object.Type()` tags (object.go constants). -/
def objType : Obj → String
  | .nullV => "NULL"
  | .boolV _ => "BOOLEAN"
  | .intRef _ => "INTEGER"
  | .strV _ => "STRING"
  | .arrRef _ => "ARRAY"
  | .funcV _ _ _ => "FUNCTION"
  | .builtinV _ => "BUILTIN"
  | .floatV => "FLOAT"
  | .retV _ => "RETURN_VALUE"
  | .errV _ => "ERROR"
  | .breakV => "BREAK"
  | .contV => "CONTINUE"

/-- Allocate a fresh `*object.Integer` cell holding `n`. -/
def allocInt (st : St) (n : Int) : St × Obj :=
  ({ st with ints := st.ints ++ [n] }, .intRef st.ints.length)

/-- Allocate a fresh `*object.Array` cell holding `elems`. -/
def allocArr (st : St) (elems : List Obj) : St × Obj :=
  ({ st with arrs := st.arrs ++ [elems] }, .arrRef st.arrs.length)

/-- Read an integer cell (`leftVal := left.(*object.Integer).Value`).  The
default is never hit: every `intRef` produced by the evaluator is in range. -/
def readInt (st : St) (i : Nat) : Int :=
  st.ints.getD i 0

/-- Read an array cell (`arr := args[0].(*object.Array)`). -/
def readArr (st : St) (i : Nat) : List Obj :=
  st.arrs.getD i []

/-- `isError` on a runtime value. -/
def isErrorO : Obj → Bool
  | .errV _ => true
  | _ => false

/-- `isTruthy`: `NULL` and `FALSE` are falsy, everything else truthy
(all Boolean objects are the `TRUE`/`FALSE` singletons). -/
def isTruthy : Obj → Bool
  | .nullV => false
  | .boolV b => b
  | _ => true

/-- `unwrapReturnValue`. -/
def unwrapReturnValue : Obj → Obj
  | .retV v => v
  | o => o

/-! ## Builtins

The builtin table variant that matches the current (big.Int based)
evaluator is the one in `src/unnamed/part_001`.  The IO-bound entries
(`puts`, `input`) and the string/number conversions (`int`, `float`, `str`)
are not modelled; no claim exercises them. -/

/-- Error-message helper mirroring `newError` with `%d` formatting. -/
def gotWant (got : Nat) (want : String) : String :=
  "wrong number of arguments. got=" ++ toString got ++ ", want=" ++ want

/-- builtin `len` (String byte length or Array length, as a fresh Integer). -/
def lenB (args : List Obj) (st : St) : St × Obj :=
  if args.length ≠ 1 then (st, .errV (gotWant args.length "1"))
  else
    match args.getD 0 .nullV with
    | .strV s => allocInt st (Int.ofNat s.utf8ByteSize)
    | .arrRef i => allocInt st (Int.ofNat (readArr st i).length)
    | a => (st, .errV ("argument to `len` not supported, got " ++ objType a))

/-- builtin `first`. -/
def firstB (args : List Obj) (st : St) : St × Obj :=
  if args.length ≠ 1 then (st, .errV (gotWant args.length "1"))
  else
    match args.getD 0 .nullV with
    | .arrRef i =>
      match readArr st i with
      | x :: _ => (st, x)
      | [] => (st, .nullV)
    | a => (st, .errV ("argument to `first` must be ARRAY, got " ++ objType a))

/-- builtin `last`. -/
def lastB (args : List Obj) (st : St) : St × Obj :=
  if args.length ≠ 1 then (st, .errV (gotWant args.length "1"))
  else
    match args.getD 0 .nullV with
    | .arrRef i =>
      match (readArr st i).getLast? with
      | some x => (st, x)
      | none => (st, .nullV)
    | a => (st, .errV ("argument to `last` must be ARRAY, got " ++ objType a))

/-- builtin `rest`: fresh array dropping the first element; Null on empty. -/
def restB (args : List Obj) (st : St) : St × Obj :=
  if args.length ≠ 1 then (st, .errV (gotWant args.length "1"))
  else
    match args.getD 0 .nullV with
    | .arrRef i =>
      match readArr st i with
      | _ :: xs => allocArr st xs
      | [] => (st, .nullV)
    | a => (st, .errV ("argument to `rest` must be ARRAY, got " ++ objType a))

/-- builtin `push`: appends to the array cell in place and returns the same
array object (`arr.Elements = append(arr.Elements, args[1]); return arr`). -/
def pushB (args : List Obj) (st : St) : St × Obj :=
  if args.length ≠ 2 then (st, .errV (gotWant args.length "2"))
  else
    match args.getD 0 .nullV with
    | .arrRef i =>
      ({ st with arrs := st.arrs.set i (readArr st i ++ [args.getD 1 .nullV]) }, .arrRef i)
    | a => (st, .errV ("argument to `push` must be ARRAY, got " ++ objType a))

/-- builtin `pop`: removes and returns the array cell's last element in
place; Null on empty. -/
def popB (args : List Obj) (st : St) : St × Obj :=
  if args.length ≠ 1 then (st, .errV (gotWant args.length "1"))
  else
    match args.getD 0 .nullV with
    | .arrRef i =>
      match (readArr st i).getLast? with
      | some popped =>
        ({ st with arrs := st.arrs.set i (readArr st i).dropLast }, popped)
      | none => (st, .nullV)
    | a => (st, .errV ("argument to `pop` must be ARRAY, got " ++ objType a))

/-- builtin `concat`: at least two arrays, concatenated into a fresh array. -/
def concatB (args : List Obj) (st : St) : St × Obj :=
  if args.length < 2 then (st, .errV (gotWant args.length "2+"))
  else
    match args.find? (fun a => !(match a with | .arrRef _ => true | _ => false)) with
    | some bad => (st, .errV ("argument to `concat` must be ARRAY, got " ++ objType bad))
    | none =>
      allocArr st (args.flatMap (fun a => match a with | .arrRef i => readArr st i | _ => []))

/-- builtin `type`. -/
def typeB (args : List Obj) (st : St) : St × Obj :=
  if args.length ≠ 1 then (st, .errV (gotWant args.length "1"))
  else (st, .strV (objType (args.getD 0 .nullV)))

/-- The builtin table (`var builtins = map[string]*object.Builtin{...}`).
Entries are immutable, so `Obj.builtinV name` standing for the table's
`*object.Builtin` pointer is a faithful representation. -/
def builtins : String → Option (List Obj → St → St × Obj)
  | "len" => some lenB
  | "first" => some firstB
  | "last" => some lastB
  | "rest" => some restB
  | "push" => some pushB
  | "pop" => some popB
  | "concat" => some concatB
  | "type" => some typeB
  | _ => none


/-! ## Operator evaluation (evaluator.go) -/

/-- `evalBangOperatorExpression`: `!` with special-casing for numeric zero. -/
def evalBangOperatorExpression (right : Obj) (st : St) : Obj :=
  match right with
  | .boolV b => .boolV (!b)
  | .nullV => .boolV true
  | .intRef i => if readInt st i = 0 then .boolV true else .boolV false
  | _ => .boolV false

/-- `evalMinusPrefixOperatorExpression` (the Float case is outside the
modelled fragment; no claim negates a Float). -/
def evalMinusPrefixOperatorExpression (right : Obj) (st : St) : St × Obj :=
  match right with
  | .intRef i => allocInt st (-(readInt st i))
  | r => (st, .errV ("unknown operator: -" ++ objType r))

/-- `evalTildePrefixOperatorExpression`: `big.Int.Not(x) = -x-1 = Int.lnot x`. -/
def evalTildePrefixOperatorExpression (right : Obj) (st : St) : St × Obj :=
  match right with
  | .intRef i => allocInt st (Int.lnot (readInt st i))
  | r => (st, .errV ("unknown operator: ~" ++ objType r))

/-- `evalIncrementExpression`: prefix `++` adds 1 to the operand's integer
cell in place and returns the operand itself; postfix `++` first allocates a
fresh Integer holding the old value (the snapshot that is returned), then
mutates the operand's cell. -/
def evalIncrementExpression (operand : Obj) (isPre : Bool) (st : St) : St × Obj :=
  match operand with
  | .intRef i =>
    let v := readInt st i
    if isPre then ({ st with ints := st.ints.set i (v + 1) }, .intRef i)
    else
      let (st1, snapshot) := allocInt st v
      ({ st1 with ints := st1.ints.set i (v + 1) }, snapshot)
  | o => (st, .errV ("unknown operator: ++" ++ objType o))

/-- `evalDecrementExpression`: like increment with `-`. -/
def evalDecrementExpression (operand : Obj) (isPre : Bool) (st : St) : St × Obj :=
  match operand with
  | .intRef i =>
    let v := readInt st i
    if isPre then ({ st with ints := st.ints.set i (v - 1) }, .intRef i)
    else
      let (st1, snapshot) := allocInt st v
      ({ st1 with ints := st1.ints.set i (v - 1) }, snapshot)
  | o => (st, .errV ("unknown operator: --" ++ objType o))

/-- `evalPrefixExpression`. -/
def evalPrefixExpression (op : String) (right : Obj) (st : St) : St × Obj :=
  match op with
  | "!" => (st, evalBangOperatorExpression right st)
  | "-" => evalMinusPrefixOperatorExpression right st
  | "~" => evalTildePrefixOperatorExpression right st
  | "++" => evalIncrementExpression right true st
  | "--" => evalDecrementExpression right true st
  | _ => (st, .errV ("unknown operator: " ++ op ++ objType right))

/-- `evalPostfixExpression`. -/
def evalPostfixExpression (op : String) (left : Obj) (st : St) : St × Obj :=
  match op with
  | "++" => evalIncrementExpression left false st
  | "--" => evalDecrementExpression left false st
  | _ => (st, .errV ("unknown operator: " ++ op ++ objType left))

/-- The shift amount `uint(rightVal.Int64())`: reinterpreting the low 64 bits
of the (possibly negative) count as an unsigned integer. -/
def shiftAmt (rv : Int) : Nat :=
  (rv % (2 ^ 64)).toNat

/-- `evalIntegerInfixExpression`.  `big.Int.Div`/`Mod` are Euclidean division
and modulus, i.e. Lean's `Int.ediv`/`Int.emod`.  The compound forms first
compute the result, then copy it into the left operand's cell
(`leftVal.Set(result)`), then return a fresh Integer holding the result —
except `**=`, whose `left = &object.Float{...}` only rebinds the Go local, a
no-op on the caller's operand.  `**` produces a `big.Float` via float64
`math.Pow` (`bigFloatPow`); the float value itself is outside this embedding
and is recorded by the opaque-free marker `floatV` (no claim evaluates `**`).
`none` models the panic of the `.(*object.Integer)` type assertions. -/
def evalIntegerInfixExpression (op : String) (l r : Obj) (st : St) : Option (St × Obj) :=
  match l, r with
  | .intRef li, .intRef ri =>
    let lv := readInt st li
    let rv := readInt st ri
    some (match op with
    | "+" => allocInt st (lv + rv)
    | "+=" => allocInt { st with ints := st.ints.set li (lv + rv) } (lv + rv)
    | "-" => allocInt st (lv - rv)
    | "-=" => allocInt { st with ints := st.ints.set li (lv - rv) } (lv - rv)
    | "*" => allocInt st (lv * rv)
    | "*=" => allocInt { st with ints := st.ints.set li (lv * rv) } (lv * rv)
    | "/" =>
      if rv = 0 then (st, .errV "division by zero")
      else allocInt st (Int.ediv lv rv)
    | "/=" =>
      if rv = 0 then (st, .errV "division by zero")
      else allocInt { st with ints := st.ints.set li (Int.ediv lv rv) } (Int.ediv lv rv)
    | "%" =>
      if rv = 0 then (st, .errV "modulus by zero")
      else allocInt st (Int.emod lv rv)
    | "%=" =>
      if rv = 0 then (st, .errV "modulus by zero")
      else allocInt { st with ints := st.ints.set li (Int.emod lv rv) } (Int.emod lv rv)
    | "**" => (st, .floatV)
    | "**=" => (st, .floatV)
    | "<" => (st, .boolV (decide (lv < rv)))
    | ">" => (st, .boolV (decide (rv < lv)))
    | "==" => (st, .boolV (decide (lv = rv)))
    | "!=" => (st, .boolV (decide (lv ≠ rv)))
    | ">=" => (st, .boolV (decide (rv ≤ lv)))
    | "<=" => (st, .boolV (decide (lv ≤ rv)))
    | "&" => allocInt st (Int.land lv rv)
    | "&=" => allocInt { st with ints := st.ints.set li (Int.land lv rv) } (Int.land lv rv)
    | "|" => allocInt st (Int.lor lv rv)
    | "|=" => allocInt { st with ints := st.ints.set li (Int.lor lv rv) } (Int.lor lv rv)
    | "^" => allocInt st (Int.xor lv rv)
    | "^=" => allocInt { st with ints := st.ints.set li (Int.xor lv rv) } (Int.xor lv rv)
    | ">>" => allocInt st (Int.ediv lv (2 ^ shiftAmt rv))
    | ">>=" =>
      allocInt { st with ints := st.ints.set li (Int.ediv lv (2 ^ shiftAmt rv)) }
        (Int.ediv lv (2 ^ shiftAmt rv))
    | "<<" => allocInt st (lv * 2 ^ shiftAmt rv)
    | "<<=" => allocInt { st with ints := st.ints.set li (lv * 2 ^ shiftAmt rv) } (lv * 2 ^ shiftAmt rv)
    | _ => (st, .errV ("unknown operator: INTEGER " ++ op ++ " INTEGER")))
  | _, _ => none

/-- `evalBooleanInfixExpression`. -/
def evalBooleanInfixExpression (op : String) (l r : Obj) : Option Obj :=
  match l, r with
  | .boolV a, .boolV b =>
    some (match op with
    | "==" => .boolV (a == b)
    | "!=" => .boolV (a != b)
    | _ => .errV ("unknown operator: BOOLEAN " ++ op ++ " BOOLEAN"))
  | _, _ => none

/-- `evalStringInfixExpression`.  Go compares byte-wise; Lean's `String`
ordering is code-point-wise, which agrees on ASCII (no claim compares
non-ASCII strings). -/
def evalStringInfixExpression (op : String) (l r : Obj) : Option Obj :=
  match l, r with
  | .strV a, .strV b =>
    some (match op with
    | "+" => .strV (a ++ b)
    | "==" => .boolV (a == b)
    | "!=" => .boolV (a != b)
    | ">" => .boolV (decide (b < a))
    | "<" => .boolV (decide (a < b))
    | ">=" => .boolV (decide (b ≤ a))
    | "<=" => .boolV (decide (a ≤ b))
    | _ => .errV ("unknown operator: STRING " ++ op ++ " STRING"))
  | _, _ => none

mutual
/-- Modelled from the spec: `object.IsEqual` (its source file is not under
src/; only its callers in evaluator.go and lib/array.go are) performs deep
value comparison, per the spec sentence "equality/inequality by deep value
comparison".  The fuel bounds the dereferencing depth; Go's version does not
terminate on cyclic arrays either. -/
def isEqualModel : Nat → St → Obj → Obj → Bool
  | 0, _, _, _ => false
  | fuel + 1, st, a, b =>
    match a, b with
    | .nullV, .nullV => true
    | .boolV x, .boolV y => x == y
    | .intRef i, .intRef j => readInt st i == readInt st j
    | .strV x, .strV y => x == y
    | .arrRef i, .arrRef j => isEqualListModel fuel st (readArr st i) (readArr st j)
    | _, _ => false

/-- Element-wise deep comparison for `isEqualModel`. -/
def isEqualListModel : Nat → St → List Obj → List Obj → Bool
  | 0, _, _, _ => false
  | _ + 1, _, [], [] => true
  | fuel + 1, st, x :: xs, y :: ys =>
    isEqualModel fuel st x y && isEqualListModel (fuel + 1) st xs ys
  | _ + 1, _, _, _ => false
end

/-- Fuel that suffices for any acyclic structure in the store. -/
def isEqualFuel (st : St) : Nat :=
  st.arrs.length + (st.arrs.map List.length).sum + 2

/-- `evalArrayInfixExpression`: `+` concatenates into a fresh array object;
`==`/`!=` use the deep comparison. -/
def evalArrayInfixExpression (op : String) (l r : Obj) (st : St) : Option (St × Obj) :=
  match l, r with
  | .arrRef li, .arrRef ri =>
    some (match op with
    | "+" => allocArr st (readArr st li ++ readArr st ri)
    | "==" => (st, .boolV (isEqualModel (isEqualFuel st) st l r))
    | "!=" => (st, .boolV (!isEqualModel (isEqualFuel st) st l r))
    | _ => (st, .errV ("unknown operator: ARRAY " ++ op ++ " ARRAY")))
  | _, _ => none

/-- `evalLogicalAndExpression` (both operands were already evaluated). -/
def evalLogicalAndExpression (l r : Obj) : Obj :=
  if isTruthy l then r else l

/-- `evalLogicalOrExpression`. -/
def evalLogicalOrExpression (l r : Obj) : Obj :=
  if isTruthy l then l else r

/-- Go interface identity `left == right` for the operand kinds that can
reach the cross-type `==`/`!=` branch: the `NULL` singleton, table-singleton
builtins, and references compare by identity; distinct function literals
yield distinct objects and function identity is not tracked (no claim
compares function values), so `funcV` compares unequal. -/
def objIdentity : Obj → Obj → Bool
  | .nullV, .nullV => true
  | .builtinV a, .builtinV b => a == b
  | .intRef i, .intRef j => i == j
  | .arrRef i, .arrRef j => i == j
  | _, _ => false

/-- `evalInfixExpression`: operator/type dispatch in source order.  The
Float-operand branch delegates to `evalFloatInfixExpression`, whose
float64-based arithmetic is outside this embedding; the marker `floatV`
records only that a Float-typed result is produced (no modelled claim
evaluates Float operands).  Hash operands are outside the modelled
fragment.  `none` models Go panics: the failed type assertion
`left.(*object.String)` / `left.(*object.Array)` when the Integer operand is
on the left, and `strings.Repeat` with a negative count. -/
def evalInfixExpression (op : String) (l r : Obj) (st : St) : Option (St × Obj) :=
  if op = "&&" then some (st, evalLogicalAndExpression l r)
  else if op = "||" then some (st, evalLogicalOrExpression l r)
  else
    match l, r with
    | .intRef li, .intRef ri => evalIntegerInfixExpression op (.intRef li) (.intRef ri) st
    | .floatV, _ => some (st, .floatV)
    | _, .floatV => some (st, .floatV)
    | .boolV a, .boolV b => (evalBooleanInfixExpression op (.boolV a) (.boolV b)).map (st, ·)
    | .strV a, .strV b => (evalStringInfixExpression op (.strV a) (.strV b)).map (st, ·)
    | .strV a, .intRef ri =>
      if op = "*" then
        let n := readInt st ri
        if n < 0 then none
        else some (st, .strV (String.join (List.replicate n.toNat a)))
      else some (st, .errV ("unknown operator: STRING " ++ op ++ " INTEGER"))
    | .intRef _, .strV _ =>
      if op = "*" then none
      else some (st, .errV ("unknown operator: INTEGER " ++ op ++ " STRING"))
    | .arrRef la, .arrRef ra => evalArrayInfixExpression op (.arrRef la) (.arrRef ra) st
    | .arrRef la, .intRef ri =>
      if op = "*" then
        let n := readInt st ri
        some (allocArr st (List.flatten (List.replicate n.toNat (readArr st la))))
      else some (st, .errV ("unknown operator: ARRAY " ++ op ++ " INTEGER"))
    | .intRef _, .arrRef _ =>
      if op = "*" then none
      else some (st, .errV ("unknown operator: INTEGER " ++ op ++ " ARRAY"))
    | a, b =>
      if op = "==" then some (st, .boolV (objIdentity a b))
      else if op = "!=" then some (st, .boolV (!objIdentity a b))
      else if objType a ≠ objType b then
        some (st, .errV ("type mismatch: " ++ objType a ++ " " ++ op ++ " " ++ objType b))
      else some (st, .errV ("unknown operator: " ++ objType a ++ " " ++ op ++ " " ++ objType b))


/-- `evalIdentifier`: environment chain first, then the builtin table,
otherwise an "identifier not found" error. -/
def evalIdentifier (name : String) (env : EnvT) : Obj :=
  match getVar env name with
  | (some v, true, _) => v
  | _ =>
    if (builtins name).isSome then .builtinV name
    else .errV ("identifier not found: " ++ name)

/-- The parameter-binding loop of `extendFunctionEnv`:
`for paramIdx, param := range fn.Parameters { env.Set(param.Value, args[paramIdx]) }`.
The result of `Set` is discarded.  `none` models the `args[paramIdx]`
index-out-of-range panic when the parameters outnumber the arguments. -/
def bindParams : EnvT → List String → List Obj → Option EnvT
  | env, [], _ => some env
  | env, p :: ps, a :: as => bindParams (setVar env p a).1 ps as
  | _, _ :: _, [] => none

/-- `extendFunctionEnv`: a fresh environment enclosing the function's
captured environment, then the positional `Set` loop. -/
def extendFunctionEnv (params : List String) (args : List Obj) (fenv : EnvT) : Option EnvT :=
  bindParams (newEnclosedEnvironment fenv) params args

/-- `unwrapReturnValue` on Go's possibly-nil `Eval` result. -/
def unwrapReturnOpt : Option Obj → Option Obj
  | some (.retV v) => some v
  | r => r

/-- Result of `Eval`: a possibly-nil value plus the threaded environment and
store, or a Go panic, or exhausted fuel (an artifact of the embedding only —
Go recurses without fuel). -/
inductive Out where
  | ok (res : Option Obj) (env : EnvT) (st : St)
  | crashed
  | fuelOut

/-- Result of `applyFunction` (no environment is returned to the caller). -/
inductive COut where
  | ok (res : Option Obj) (st : St)
  | crashed
  | fuelOut

/-- Result of `evalExpressions`. -/
inductive EOut where
  | ok (vals : List Obj) (env : EnvT) (st : St)
  | crashed
  | fuelOut

mutual
/-- `Eval` (evaluator.go): structural recursion over the AST with the fuel
made explicit.  Node kinds not handled by the Go switch fall through to its
final `return nil`, modelled by `.ok none`; in the modelled fragment that is
exactly `ast.ForStatement`.  A sub-expression evaluating to nil cannot occur
for parser-produced ASTs; where Go would subsequently dereference that nil
the embedding reports `.crashed`. -/
def eval : Nat → Node → EnvT → St → Out
  | 0, _, _, _ => .fuelOut
  | fuel + 1, node, env, st =>
    match node with
    | .program stmts => evalProgramStmts fuel stmts none env st
    | .blockStmt stmts => evalBlockStmts fuel stmts none env st
    | .exprStmt e => eval fuel e env st
    | .returnStmt v =>
      match eval fuel v env st with
      | .ok (some val) env1 st1 =>
        if isErrorO val then .ok (some val) env1 st1
        else .ok (some (.retV val)) env1 st1
      | .ok none _ _ => .crashed
      | o => o
    | .intLit n =>
      let (st1, o) := allocInt st n
      .ok (some o) env st1
    | .boolLit b => .ok (some (.boolV b)) env st
    | .strLit s => .ok (some (.strV s)) env st
    | .identE name => .ok (some (evalIdentifier name env)) env st
    | .funcLit params body => .ok (some (.funcV params body env)) env st
    | .prefixExpr op r =>
      match eval fuel r env st with
      | .ok (some robj) env1 st1 =>
        if isErrorO robj then .ok (some robj) env1 st1
        else
          let (st2, res) := evalPrefixExpression op robj st1
          .ok (some res) env1 st2
      | .ok none _ _ => .crashed
      | o => o
    | .postfixExpr op l =>
      match eval fuel l env st with
      | .ok (some lobj) env1 st1 =>
        if isErrorO lobj then .ok (some lobj) env1 st1
        else
          let (st2, res) := evalPostfixExpression op lobj st1
          .ok (some res) env1 st2
      | .ok none _ _ => .crashed
      | o => o
    | .infixExpr op l r =>
      match eval fuel l env st with
      | .ok (some lobj) env1 st1 =>
        if isErrorO lobj then .ok (some lobj) env1 st1
        else
          match eval fuel r env1 st1 with
          | .ok (some robj) env2 st2 =>
            if isErrorO robj then .ok (some robj) env2 st2
            else
              match evalInfixExpression op lobj robj st2 with
              | some (st3, res) => .ok (some res) env2 st3
              | none => .crashed
          | .ok none _ _ => .crashed
          | o => o
      | .ok none _ _ => .crashed
      | o => o
    | .letStmt name v =>
      match eval fuel v env st with
      | .ok (some val) env1 st1 =>
        if isErrorO val then .ok (some val) env1 st1
        else
          let (env2, res) := newVar env1 name val
          .ok (some res) env2 st1
      | .ok none _ _ => .crashed
      | o => o
    | .constStmt name v =>
      match eval fuel v env st with
      | .ok (some val) env1 st1 =>
        if isErrorO val then .ok (some val) env1 st1
        else
          let (env2, res) := newConst env1 name val
          .ok (some res) env2 st1
      | .ok none _ _ => .crashed
      | o => o
    | .assignExpr target v =>
      match eval fuel v env st with
      | .ok (some val) env1 st1 =>
        if isErrorO val then .ok (some val) env1 st1
        else
          match target with
          | .identE name =>
            match getVar env1 name with
            | (_, false, _) =>
              .ok (some (.errV ("identifier not found: " ++ name))) env1 st1
            | (_, true, true) =>
              .ok (some (.errV ("cannot assign to constant \x27" ++ name ++ "\x27"))) env1 st1
            | (_, true, false) =>
              .ok (some val) (setVar env1 name val).1 st1
          | _ => .ok (some (.errV "invalid assignment target")) env1 st1
      | .ok none _ _ => .crashed
      | o => o
    | .arrayLit elems =>
      match evalExpressions fuel elems [] env st with
      | .ok vals env1 st1 =>
        match vals with
        | [v] =>
          if isErrorO v then .ok (some v) env1 st1
          else
            let (st2, o) := allocArr st1 vals
            .ok (some o) env1 st2
        | _ =>
          let (st2, o) := allocArr st1 vals
          .ok (some o) env1 st2
      | .crashed => .crashed
      | .fuelOut => .fuelOut
    | .callExpr f args =>
      match eval fuel f env st with
      | .ok (some fv) env1 st1 =>
        if isErrorO fv then .ok (some fv) env1 st1
        else
          match evalExpressions fuel args [] env1 st1 with
          | .ok vals env2 st2 =>
            match vals with
            | [v] =>
              if isErrorO v then .ok (some v) env2 st2
              else
                match applyFunction fuel fv vals st2 with
                | .ok r st3 => .ok r env2 st3
                | .crashed => .crashed
                | .fuelOut => .fuelOut
            | _ =>
              match applyFunction fuel fv vals st2 with
              | .ok r st3 => .ok r env2 st3
              | .crashed => .crashed
              | .fuelOut => .fuelOut
          | .crashed => .crashed
          | .fuelOut => .fuelOut
      | .ok none _ _ => .crashed
      | o => o
    | .breakStmt => .ok (some .breakV) env st
    | .continueStmt => .ok (some .contV) env st
    | .forStmt _ _ _ _ => .ok none env st

/-- `evalProgram`: run the statements in order, unwrapping a `ReturnValue`
and stopping on an `Error`; the running `result` starts as Go's nil. -/
def evalProgramStmts : Nat → List Node → Option Obj → EnvT → St → Out
  | 0, _, _, _, _ => .fuelOut
  | _ + 1, [], result, env, st => .ok result env st
  | fuel + 1, s :: rest, _, env, st =>
    match eval fuel s env st with
    | .ok r env1 st1 =>
      match r with
      | some (.retV v) => .ok (some v) env1 st1
      | some (.errV m) => .ok (some (.errV m)) env1 st1
      | _ => evalProgramStmts fuel rest r env1 st1
    | o => o

/-- `evalBlockStatement`: like the program loop but `ReturnValue` and
`Error` short-circuit upward unchanged (no unwrapping). -/
def evalBlockStmts : Nat → List Node → Option Obj → EnvT → St → Out
  | 0, _, _, _, _ => .fuelOut
  | _ + 1, [], result, env, st => .ok result env st
  | fuel + 1, s :: rest, _, env, st =>
    match eval fuel s env st with
    | .ok r env1 st1 =>
      match r with
      | some (.retV v) => .ok (some (.retV v)) env1 st1
      | some (.errV m) => .ok (some (.errV m)) env1 st1
      | _ => evalBlockStmts fuel rest r env1 st1
    | o => o

/-- `evalExpressions`: evaluate in order, appending to the accumulated
`result`; on the first `Error`, immediately return the one-element list
holding it (the caller tests `len==1 && isError`).  Callers start the
accumulator at `[]`. -/
def evalExpressions : Nat → List Node → List Obj → EnvT → St → EOut
  | 0, _, _, _, _ => .fuelOut
  | _ + 1, [], acc, env, st => .ok acc env st
  | fuel + 1, e :: rest, acc, env, st =>
    match eval fuel e env st with
    | .ok (some v) env1 st1 =>
      if isErrorO v then .ok [v] env1 st1
      else evalExpressions fuel rest (acc ++ [v]) env1 st1
    | .ok none _ _ => .crashed
    | .crashed => .crashed
    | .fuelOut => .fuelOut

/-- `applyFunction`: user functions get a fresh environment enclosing the
captured one with the parameters bound positionally via `Set`, then the body
is evaluated and one level of `ReturnValue` unwrapped; builtins are called
on the evaluated arguments; anything else is a "not a function" error. -/
def applyFunction : Nat → Obj → List Obj → St → COut
  | 0, _, _, _ => .fuelOut
  | fuel + 1, .funcV params body fenv, args, st =>
    match extendFunctionEnv params args fenv with
    | none => .crashed
    | some newEnv =>
      match eval fuel body newEnv st with
      | .ok r _ st1 => .ok (unwrapReturnOpt r) st1
      | .crashed => .crashed
      | .fuelOut => .fuelOut
  | _ + 1, .builtinV name, args, st =>
    match builtins name with
    | some f =>
      let (st1, r) := f args st
      .ok (some r) st1
    | none => .crashed
  | _ + 1, fn, _, st => .ok (some (.errV ("not a function: " ++ objType fn))) st
end


/-! ## Keyword table (token.go)

The `token.go` snapshot under src/ predates the rest of the sources: the
parser there references `token.ELIF` and `token.POW_ASSIGN`, which that
snapshot does not define, so the current keyword table itself is not under
src/ and is reconstructed from the spec. -/

/-- Modelled from the spec: the lexer keyword table of `token.go` (the
snapshot under src/ lacks the `elif` entry and the `ELIF` kind although
`parser.go` requires them), mapping each keyword literal of the spec list
"fn let const true false if elif else return while for break continue
import" to its dedicated token kind. -/
def keywords : List (String × String) :=
  [("fn", "FUNCTION"), ("let", "LET"), ("const", "CONST"), ("true", "TRUE"),
   ("false", "FALSE"), ("if", "IF"), ("elif", "ELIF"), ("else", "ELSE"),
   ("return", "RETURN"), ("while", "WHILE"), ("for", "FOR"),
   ("break", "BREAK"), ("continue", "CONTINUE"), ("import", "IMPORT")]

/-- `token.LookupIdent`: keyword kind when the literal is in the table,
`IDENT` otherwise. -/
def lookupIdent (ident : String) : String :=
  match (keywords.find? (fun p => p.1 == ident)) with
  | some p => p.2
  | none => "IDENT"

/-! ## List helper lemmas for store reasoning -/

theorem listGetElemAppendMid {α : Type} (pre : List α) (x : α) (post : List α)
    (h : pre.length < (pre ++ x :: post).length) :
    (pre ++ x :: post)[pre.length] = x := by
  induction pre with
  | nil => rfl
  | cons a t ih => simpa using ih (by simpa using h)

theorem listGetElemAppendSucc {α : Type} (pre : List α) (x y : α) (post : List α)
    (h : pre.length + 1 < (pre ++ x :: y :: post).length) :
    (pre ++ x :: y :: post)[pre.length + 1] = y := by
  induction pre with
  | nil => rfl
  | cons a t ih => simpa using ih (by simpa using h)

theorem listSetAppend {α : Type} (pre : List α) (x y : α) (post : List α) :
    (pre ++ x :: post).set pre.length y = pre ++ y :: post := by
  induction pre with
  | nil => rfl
  | cons h t ih => simp [List.set, ih]

/-! ## Claims -/

/-- C2: the spec requires `for (init?; cond?; post?) { body }` to run init
once, test cond before each iteration, and run body then post; but the
`Eval` switch in evaluator.go has no `*ast.ForStatement` case, so control
falls through to the final `return nil`.  Evaluating the parsed for
statement `for (let i = 0; i < 3; i = i + 1) { x = x + 1 }` leaves the
environment and store untouched and produces Go nil (`Out.ok none`); in the
program `let x = 0; for (...) {...}; x;` the loop body consequently never
runs and `x` still reads 0. -/
theorem c2_for_statement_evaluates_to_nil :
    (eval 100
      (.forStmt (some (.letStmt "i" (.intLit 0)))
        (some (.infixExpr "<" (.identE "i") (.intLit 3)))
        (some (.exprStmt (.assignExpr (.identE "i") (.infixExpr "+" (.identE "i") (.intLit 1)))))
        (.blockStmt [.exprStmt (.assignExpr (.identE "x") (.infixExpr "+" (.identE "x") (.intLit 1)))]))
      (.mk [("x", .intRef 0, false)] none) ⟨[0], []⟩ =
      .ok none (.mk [("x", .intRef 0, false)] none) ⟨[0], []⟩)
    ∧ (eval 100
      (.program [.letStmt "x" (.intLit 0),
        .forStmt (some (.letStmt "i" (.intLit 0)))
          (some (.infixExpr "<" (.identE "i") (.intLit 3)))
          (some (.exprStmt (.assignExpr (.identE "i") (.infixExpr "+" (.identE "i") (.intLit 1)))))
          (.blockStmt [.exprStmt (.assignExpr (.identE "x") (.infixExpr "+" (.identE "x") (.intLit 1)))]),
        .exprStmt (.identE "x")])
      (.mk [] none) {} =
      .ok (some (.intRef 0)) (.mk [("x", .intRef 0, false)] none) ⟨[0], []⟩) :=
  ⟨rfl, rfl⟩

/-- C4: for Integer cells x and y with y ≠ 0, chaining the evaluator's
Integer-Integer infix operators `/`, `%`, `*`, `+`, `==` computes
`(x/y)*y + (x%y) == x` and yields the Boolean `true` — `big.Int.Div`/`Mod`
are Euclidean division and modulus, for which the identity is exact. -/
theorem c4_div_mod_identity (x y : Int) (h : y ≠ 0) :
    (evalIntegerInfixExpression "/" (.intRef 0) (.intRef 1) ⟨[x, y], []⟩ =
      some (⟨[x, y, Int.ediv x y], []⟩, .intRef 2))
    ∧ (evalIntegerInfixExpression "%" (.intRef 0) (.intRef 1) ⟨[x, y, Int.ediv x y], []⟩ =
      some (⟨[x, y, Int.ediv x y, Int.emod x y], []⟩, .intRef 3))
    ∧ (evalIntegerInfixExpression "*" (.intRef 2) (.intRef 1)
        ⟨[x, y, Int.ediv x y, Int.emod x y], []⟩ =
      some (⟨[x, y, Int.ediv x y, Int.emod x y, Int.ediv x y * y], []⟩, .intRef 4))
    ∧ (evalIntegerInfixExpression "+" (.intRef 4) (.intRef 3)
        ⟨[x, y, Int.ediv x y, Int.emod x y, Int.ediv x y * y], []⟩ =
      some (⟨[x, y, Int.ediv x y, Int.emod x y, Int.ediv x y * y,
              Int.ediv x y * y + Int.emod x y], []⟩, .intRef 5))
    ∧ (evalIntegerInfixExpression "==" (.intRef 5) (.intRef 0)
        ⟨[x, y, Int.ediv x y, Int.emod x y, Int.ediv x y * y,
          Int.ediv x y * y + Int.emod x y], []⟩ =
      some (⟨[x, y, Int.ediv x y, Int.emod x y, Int.ediv x y * y,
              Int.ediv x y * y + Int.emod x y], []⟩, .boolV true)) := by
  have hid : Int.ediv x y * y + Int.emod x y = x := by
    have h2 := Int.ediv_add_emod x y
    linear_combination h2
  refine ⟨?_, ?_, ?_, ?_, ?_⟩ <;>
    simp [evalIntegerInfixExpression, readInt, allocInt, h, hid]

/-- C4 witness: the identity chain at x = 7, y = -3 (Euclidean: 7 = (-2)·(-3) + 1). -/
theorem c4_div_mod_identity_witness :
    evalIntegerInfixExpression "==" (.intRef 5) (.intRef 0)
      ⟨[7, -3, Int.ediv 7 (-3), Int.emod 7 (-3), Int.ediv 7 (-3) * (-3),
        Int.ediv 7 (-3) * (-3) + Int.emod 7 (-3)], []⟩ =
    some (⟨[7, -3, Int.ediv 7 (-3), Int.emod 7 (-3), Int.ediv 7 (-3) * (-3),
            Int.ediv 7 (-3) * (-3) + Int.emod 7 (-3)], []⟩, .boolV true) :=
  (c4_div_mod_identity 7 (-3) (by decide)).2.2.2.2

/-- C5: the Integer-Integer operators `/` and `%` error exactly on a zero
right operand — `/` with "division by zero", `%` with "modulus by zero" —
and produce a freshly allocated Integer for every non-zero right operand;
and the program `1 / 0;` evaluates to the Error "division by zero". -/
theorem c5_division_modulus_by_zero (x y : Int) :
    (evalIntegerInfixExpression "/" (.intRef 0) (.intRef 1) ⟨[x, y], []⟩ =
      some (if y = 0 then (⟨[x, y], []⟩, .errV "division by zero")
            else (⟨[x, y, Int.ediv x y], []⟩, .intRef 2)))
    ∧ (evalIntegerInfixExpression "%" (.intRef 0) (.intRef 1) ⟨[x, y], []⟩ =
      some (if y = 0 then (⟨[x, y], []⟩, .errV "modulus by zero")
            else (⟨[x, y, Int.emod x y], []⟩, .intRef 2)))
    ∧ (eval 100 (.program [.exprStmt (.infixExpr "/" (.intLit 1) (.intLit 0))])
        (.mk [] none) {} =
      .ok (some (.errV "division by zero")) (.mk [] none) ⟨[1, 0], []⟩) := by
  refine ⟨?_, ?_, rfl⟩ <;>
    by_cases h : y = 0 <;>
      simp [evalIntegerInfixExpression, readInt, allocInt, h]


/-- C8: the keyword table maps each of the 14 keyword literals — in
particular `elif` — to its dedicated token kind, never to `IDENT`, so
`if`/`elif`/`else` chains lex as keywords. -/
theorem c8_keyword_table :
    lookupIdent "elif" = "ELIF"
    ∧ lookupIdent "fn" = "FUNCTION" ∧ lookupIdent "let" = "LET"
    ∧ lookupIdent "const" = "CONST" ∧ lookupIdent "true" = "TRUE"
    ∧ lookupIdent "false" = "FALSE" ∧ lookupIdent "if" = "IF"
    ∧ lookupIdent "else" = "ELSE" ∧ lookupIdent "return" = "RETURN"
    ∧ lookupIdent "while" = "WHILE" ∧ lookupIdent "for" = "FOR"
    ∧ lookupIdent "break" = "BREAK" ∧ lookupIdent "continue" = "CONTINUE"
    ∧ lookupIdent "import" = "IMPORT"
    ∧ ∀ p ∈ keywords, lookupIdent p.1 ≠ "IDENT" := by
  refine ⟨rfl, rfl, rfl, rfl, rfl, rfl, rfl, rfl, rfl, rfl, rfl, rfl, rfl, rfl, ?_⟩
  decide

/-- C3: for every array cell contents `xs` (the array value `a`), every
non-Error value `v`, and arbitrary surrounding store, evaluating
`len(push(a, v)) == len(a)` yields Boolean `true`: `push` appends to the
array cell in place and returns the same aliased `arrRef`, so by the time
the right-hand `len(a)` runs, both `len` calls allocate the incremented
length `xs.length + 1`. -/
theorem c3_push_len_aliasing (ins : List Int) (pre post : List (List Obj))
    (xs : List Obj) (v : Obj) (hv : isErrorO v = false) :
    eval 100 (.infixExpr "=="
      (.callExpr (.identE "len") [.callExpr (.identE "push") [.identE "a", .identE "v"]])
      (.callExpr (.identE "len") [.identE "a"]))
      (.mk [("a", .arrRef pre.length, false), ("v", v, false)] none)
      ⟨ins, pre ++ xs :: post⟩ =
    .ok (some (.boolV true))
      (.mk [("a", .arrRef pre.length, false), ("v", v, false)] none)
      ⟨ins ++ [(xs.length : Int) + 1, (xs.length : Int) + 1], pre ++ (xs ++ [v]) :: post⟩ := by
  cases v <;>
    simp_all [eval, evalExpressions, applyFunction, builtins, pushB, lenB, evalIdentifier, getVar,
      storeGet, evalInfixExpression, evalIntegerInfixExpression, readArr, readInt, allocInt,
      listGetElemAppendMid, listGetElemAppendSucc, listSetAppend, isErrorO, unwrapReturnOpt,
      gotWant, List.getD]

/-- C3 witness: `a = [9]`, `v = true` in an otherwise empty store. -/
theorem c3_push_len_aliasing_witness :
    eval 100 (.infixExpr "=="
      (.callExpr (.identE "len") [.callExpr (.identE "push") [.identE "a", .identE "v"]])
      (.callExpr (.identE "len") [.identE "a"]))
      (.mk [("a", .arrRef 0, false), ("v", .boolV true, false)] none)
      ⟨[], [[.intRef 0]]⟩ =
    .ok (some (.boolV true))
      (.mk [("a", .arrRef 0, false), ("v", .boolV true, false)] none)
      ⟨[(1 : Int) + 1, (1 : Int) + 1], [[.intRef 0] ++ [.boolV true]]⟩ := by
  have h := c3_push_len_aliasing [] [] [] [.intRef 0] (.boolV true) rfl
  simpa using h

/-- C9: prefix and postfix `++`/`--` on an Integer bound under a name mutate
the Integer object's cell in place and never touch the environment: with
both `x` and `y` bound read-only (const) to the same Integer cell, `++x`
increments the cell and returns the same reference, `x++` returns a fresh
snapshot of the old value while incrementing the cell, no
"cannot assign to constant" error is produced, and the alias `y` — still
the same reference — reads the updated value afterwards. -/
theorem c9_increment_in_place (cs ds : List Int) (n : Int) :
    (eval 100 (.prefixExpr "++" (.identE "x"))
      (.mk [("x", .intRef cs.length, true), ("y", .intRef cs.length, true)] none)
      ⟨cs ++ n :: ds, []⟩ =
      .ok (some (.intRef cs.length))
        (.mk [("x", .intRef cs.length, true), ("y", .intRef cs.length, true)] none)
        ⟨cs ++ (n + 1) :: ds, []⟩)
    ∧ (eval 100 (.prefixExpr "--" (.identE "x"))
      (.mk [("x", .intRef cs.length, true), ("y", .intRef cs.length, true)] none)
      ⟨cs ++ n :: ds, []⟩ =
      .ok (some (.intRef cs.length))
        (.mk [("x", .intRef cs.length, true), ("y", .intRef cs.length, true)] none)
        ⟨cs ++ (n - 1) :: ds, []⟩)
    ∧ (eval 100 (.postfixExpr "++" (.identE "x"))
      (.mk [("x", .intRef cs.length, true), ("y", .intRef cs.length, true)] none)
      ⟨cs ++ n :: ds, []⟩ =
      .ok (some (.intRef (cs.length + (ds.length + 1))))
        (.mk [("x", .intRef cs.length, true), ("y", .intRef cs.length, true)] none)
        ⟨cs ++ (n + 1) :: (ds ++ [n]), []⟩)
    ∧ (eval 100 (.postfixExpr "--" (.identE "x"))
      (.mk [("x", .intRef cs.length, true), ("y", .intRef cs.length, true)] none)
      ⟨cs ++ n :: ds, []⟩ =
      .ok (some (.intRef (cs.length + (ds.length + 1))))
        (.mk [("x", .intRef cs.length, true), ("y", .intRef cs.length, true)] none)
        ⟨cs ++ (n - 1) :: (ds ++ [n]), []⟩)
    ∧ (evalIdentifier "y"
        (.mk [("x", .intRef cs.length, true), ("y", .intRef cs.length, true)] none) =
      .intRef cs.length)
    ∧ (readInt ⟨cs ++ (n + 1) :: ds, []⟩ cs.length = n + 1) := by
  refine ⟨?_, ?_, ?_, ?_, ?_, ?_⟩ <;>
    simp [eval, evalPrefixExpression, evalPostfixExpression, evalIncrementExpression,
      evalDecrementExpression, evalIdentifier, getVar, storeGet, readInt, allocInt,
      isErrorO, listGetElemAppendMid, listSetAppend, List.getD]


/-- The `Set` loop of `extendFunctionEnv` runs out of arguments as soon as
the parameter list is longer: binding reaches `args[paramIdx]` with
`paramIdx = args.length`. -/
theorem bindParamsArgsShort (pairs : List (String × Obj)) (p : String)
    (rest : List String) (env : EnvT) :
    bindParams env (pairs.map Prod.fst ++ p :: rest) (pairs.map Prod.snd) = none := by
  induction pairs generalizing env with
  | nil => rfl
  | cons qa t ih => simpa [bindParams] using ih (setVar env qa.1 qa.2).1

/-- C6: calling a user function whose argument list is shorter than its
parameter list (params = names of `pairs` plus at least one extra parameter
`p :: rest`, args = values of `pairs`) performs no arity check: the
positional bind reads `args[paramIdx]` out of range — a Go runtime panic,
`crashed` here — and never produces an `Error` value describing an arity
mismatch. -/
theorem c6_arity_mismatch_crashes (pairs : List (String × Obj)) (p : String)
    (rest : List String) (fenv : EnvT) (body : Node) (st : St) (fuel : Nat) :
    (extendFunctionEnv (pairs.map Prod.fst ++ p :: rest) (pairs.map Prod.snd) fenv = none)
    ∧ applyFunction (fuel + 1) (.funcV (pairs.map Prod.fst ++ p :: rest) body fenv)
        (pairs.map Prod.snd) st = .crashed := by
  have h := bindParamsArgsShort pairs p rest (newEnclosedEnvironment fenv)
  exact ⟨h, by simp [applyFunction, extendFunctionEnv, h]⟩

/-- C7: the builtin table binds `pop` (so an unbound identifier `pop`
resolves to the builtin, not to "identifier not found"), and `pop` is an
arity-1 host callable that removes and returns the array cell's last
element in place, returning Null on an empty array; evaluating `pop(a)` on
`a = ["u", "w"]` yields `"w"` and shrinks the cell. -/
theorem c7_pop_builtin :
    (builtins "pop").isSome = true
    ∧ evalIdentifier "pop" (.mk [] none) = .builtinV "pop"
    ∧ (∀ (ins : List Int) (pre post : List (List Obj)) (xs : List Obj) (v : Obj),
        popB [.arrRef pre.length] ⟨ins, pre ++ (xs ++ [v]) :: post⟩ =
          (⟨ins, pre ++ xs :: post⟩, v))
    ∧ (∀ (ins : List Int) (pre post : List (List Obj)),
        popB [.arrRef pre.length] ⟨ins, pre ++ [] :: post⟩ =
          (⟨ins, pre ++ [] :: post⟩, .nullV))
    ∧ (∀ (st : St), popB [] st = (st, .errV "wrong number of arguments. got=0, want=1"))
    ∧ (eval 100 (.callExpr (.identE "pop") [.identE "a"])
        (.mk [("a", .arrRef 0, false)] none) ⟨[], [[.strV "u", .strV "w"]]⟩ =
        .ok (some (.strV "w")) (.mk [("a", .arrRef 0, false)] none) ⟨[], [[.strV "u"]]⟩) := by
  refine ⟨rfl, rfl, ?_, ?_, fun st => rfl, rfl⟩
  · intro ins pre post xs v
    simp [popB, readArr, listGetElemAppendMid, listSetAppend, List.getD,
      List.getLast?_concat]
  · intro ins pre post
    simp [popB, readArr, listGetElemAppendMid, List.getD]

/-- Folding `Environment.Set` over name/value pairs (the parameter-binding
loop acting on the captured chain). -/
def setAll (e : EnvT) (pairs : List (String × Obj)) : EnvT :=
  pairs.foldl (fun acc q => (setVar acc q.1 q.2).1) e

/-- Parameter binding from a fresh enclosed frame: every `Set` walks out of
the empty innermost frame, so all bindings land in the captured chain and
the innermost frame stays empty. -/
theorem bindParamsIntoOuter (pairs : List (String × Obj)) (extra : List Obj) (fenv : EnvT) :
    bindParams (.mk [] (some fenv)) (pairs.map Prod.fst) (pairs.map Prod.snd ++ extra) =
      some (.mk [] (some (setAll fenv pairs))) := by
  induction pairs generalizing fenv with
  | nil => rfl
  | cons qa t ih => simpa [bindParams, setVar, storeGet, setAll] using ih (setVar fenv qa.1 qa.2).1

/-- C1 counterexample: calling `fn(x){...}` with one argument against a
captured environment consisting of one empty frame.  The first conjunct
computes what `extendFunctionEnv` actually builds — an *empty* innermost
frame over a captured frame that now holds the binding `x` — and the second
states that this differs from what the claim predicts (binding in the new
innermost frame, captured frame unchanged). -/
theorem c1_param_binding_counterexample :
    (extendFunctionEnv ["x"] [.boolV true] (.mk [] none) =
      some (.mk [] (some (.mk [("x", .boolV true, false)] none))))
    ∧ (extendFunctionEnv ["x"] [.boolV true] (.mk [] none) ≠
      some (.mk [("x", .boolV true, false)] (some (.mk [] none)))) := by
  refine ⟨rfl, fun hEq => ?_⟩
  simp [extendFunctionEnv, bindParams, setVar, storeGet, storeSet,
    newEnclosedEnvironment] at hEq

/-- C1 (amended): for a call whose argument list is at least as long as the
parameter list, `extendFunctionEnv` builds a new environment whose outer
link is the captured environment and whose own frame stays empty: every
parameter is bound positionally through `Environment.Set`, which walks out
of the empty new frame and writes into the captured chain itself (`setAll`);
`applyFunction` then evaluates the body in that new environment and unwraps
exactly one level of `ReturnValue`. -/
theorem c1_call_binding_walks_into_captured_env (pairs : List (String × Obj))
    (extra : List Obj) (fenv : EnvT) :
    (extendFunctionEnv (pairs.map Prod.fst) (pairs.map Prod.snd ++ extra) fenv =
      some (.mk [] (some (setAll fenv pairs))))
    ∧ ∀ (body : Node) (st : St) (fuel : Nat),
        applyFunction (fuel + 1) (.funcV (pairs.map Prod.fst) body fenv)
          (pairs.map Prod.snd ++ extra) st =
        (match eval fuel body (.mk [] (some (setAll fenv pairs))) st with
         | .ok r _ st1 => .ok (unwrapReturnOpt r) st1
         | .crashed => .crashed
         | .fuelOut => .fuelOut) := by
  have h : extendFunctionEnv (pairs.map Prod.fst) (pairs.map Prod.snd ++ extra) fenv =
      some (.mk [] (some (setAll fenv pairs))) := by
    simpa [extendFunctionEnv, newEnclosedEnvironment] using bindParamsIntoOuter pairs extra fenv
  exact ⟨h, fun body st fuel => by simp [applyFunction, h]⟩

/-- The behavior claim C10 predicts for an unbound name, in its words: walk
to the outermost frame and silently create a non-read-only binding there. -/
def specOutermostInsert : EnvT → String → Obj → EnvT
  | .mk store none, name, val => .mk (storeSet store name val false) none
  | .mk store (some o), name, val => .mk store (some (specOutermostInsert o name val))

/-- The error condition claim C10 predicts, in its words: the frame where
the walk stops (the first frame holding the name, else the outermost frame)
holds a read-only binding for the name. -/
def specStopFrameReadOnly : EnvT → String → Bool
  | .mk store outer, name =>
    match storeGet store name with
    | some (_, ro) => ro
    | none =>
      match outer with
      | some o => specStopFrameReadOnly o name
      | none => false

/-- The one-step unfolding of the `Environment.Get` walk. -/
theorem getVarEq (store : List (String × Obj × Bool)) (outer : Option EnvT) (name : String) :
    getVar (.mk store outer) name =
      (match storeGet store name with
      | some (v, ro) => (some v, true, ro)
      | none =>
        match outer with
        | some o => getVar o name
        | none => (none, false, false)) := by
  cases hs : storeGet store name with
  | some vro => obtain ⟨v, ro⟩ := vro; cases outer <;> simp [getVar, hs]
  | none => cases outer <;> simp [getVar, hs]

/-- `Environment.Set` on a name unbound in every frame (the `Get` walk
reports not-ok) inserts the binding, non-read-only, at the outermost frame
and returns the value. -/
theorem setVarUnbound : ∀ (e : EnvT) (name : String) (val : Obj),
    (getVar e name).2.1 = false →
    setVar e name val = (specOutermostInsert e name val, val)
  | .mk store none, name, val, h => by
    rw [getVarEq] at h
    cases hs : storeGet store name with
    | some vro => obtain ⟨v, ro⟩ := vro; rw [hs] at h; simp at h
    | none => simp [setVar, specOutermostInsert, hs]
  | .mk store (some o), name, val, h => by
    rw [getVarEq] at h
    cases hs : storeGet store name with
    | some vro => obtain ⟨v, ro⟩ := vro; rw [hs] at h; simp at h
    | none =>
      rw [hs] at h
      have h2 : (getVar o name).2.1 = false := h
      simp [setVar, specOutermostInsert, hs, setVarUnbound o name val h2]

/-- The one-step unfolding of the `Environment.Set` walk. -/
theorem setVarEq (store : List (String × Obj × Bool)) (outer : Option EnvT)
    (name : String) (val : Obj) :
    setVar (.mk store outer) name val =
      (match storeGet store name with
      | none =>
        match outer with
        | some o => (.mk store (some (setVar o name val).1), (setVar o name val).2)
        | none => (.mk (storeSet store name val false) none, val)
      | some (_, ro) =>
        if ro then (.mk store outer, .errV ("cannot assign to constant \x27" ++ name ++ "\x27"))
        else (.mk (storeSet store name val false) outer, val)) := by
  cases hs : storeGet store name with
  | some vro => obtain ⟨w, ro⟩ := vro; cases outer <;> simp [setVar, hs]
  | none => cases outer <;> simp [setVar, hs]

/-- The one-step unfolding of `specStopFrameReadOnly`. -/
theorem specStopFrameReadOnlyEq (store : List (String × Obj × Bool))
    (outer : Option EnvT) (name : String) :
    specStopFrameReadOnly (.mk store outer) name =
      (match storeGet store name with
      | some (_, ro) => ro
      | none =>
        match outer with
        | some o => specStopFrameReadOnly o name
        | none => false) := by
  cases hs : storeGet store name with
  | some vro => obtain ⟨w, ro⟩ := vro; cases outer <;> simp [specStopFrameReadOnly, hs]
  | none => cases outer <;> simp [specStopFrameReadOnly, hs]

/-- `Environment.Set` with a non-Error value reports an error exactly when
the walk's stopping frame holds a read-only binding for the name. -/
theorem setVarErrIff : ∀ (e : EnvT) (name : String) (val : Obj),
    isErrorO val = false →
    isErrorO (setVar e name val).2 = specStopFrameReadOnly e name
  | .mk store outer, name, val, hv => by
    rw [setVarEq, specStopFrameReadOnlyEq]
    cases hs : storeGet store name with
    | some vro =>
      obtain ⟨w, ro⟩ := vro
      cases ro with
      | false => simpa [isErrorO] using hv
      | true => simp [isErrorO]
    | none =>
      cases outer with
      | some o => simpa using setVarErrIff o name val hv
      | none => simpa [isErrorO] using hv

/-- C10: `Environment.Set` never reports a missing binding.  For a name the
`Get` walk cannot find in any frame, `Set` walks to the outermost frame,
silently creates a non-read-only binding there and returns the value; and
in general (for values that are not themselves Error sentinels) `Set`
returns an Error exactly when the frame where its walk stops holds a
read-only binding for the name. -/
theorem c10_set_walks_to_outermost :
    (∀ (e : EnvT) (name : String) (val : Obj),
      (getVar e name).2.1 = false →
      setVar e name val = (specOutermostInsert e name val, val))
    ∧ (∀ (e : EnvT) (name : String) (val : Obj),
      isErrorO val = false →
      isErrorO (setVar e name val).2 = specStopFrameReadOnly e name) :=
  ⟨setVarUnbound, setVarErrIff⟩

/-- C10 witness: a two-frame chain (inner frame binds only `z`) with the
unbound name `w`: `Set` creates the binding in the outermost frame; the
error characterization instantiated at the same input. -/
theorem c10_set_walks_to_outermost_witness :
    (setVar (.mk [("z", .nullV, false)] (some (.mk [] none))) "w" (.strV "q") =
      (specOutermostInsert (.mk [("z", .nullV, false)] (some (.mk [] none))) "w" (.strV "q"),
        .strV "q"))
    ∧ (isErrorO (setVar (.mk [("z", .nullV, false)] (some (.mk [] none))) "w" (.strV "q")).2 =
      specStopFrameReadOnly (.mk [("z", .nullV, false)] (some (.mk [] none))) "w") :=
  ⟨(c10_set_walks_to_outermost).1 (.mk [("z", .nullV, false)] (some (.mk [] none))) "w"
      (.strV "q") rfl,
    (c10_set_walks_to_outermost).2 (.mk [("z", .nullV, false)] (some (.mk [] none))) "w"
      (.strV "q") rfl⟩

end OneY
